import Mathlib

/-!
Verification of the execution-orchestration core of vibe-kanban.

The definitions below are a shallow embedding of the Rust sources:
- `crates/services/src/services/container.rs` (ContainerService trait),
- `crates/services/src/services/config/versions/v9.rs` (WorkflowConfig),
- `crates/executors/src/executors/custom_agent.rs` (CustomAgent).

Database access, git probes and subprocess spawning are abstracted into
explicit inputs (lists of per-repo facts, probe results as `Except`
values); the control flow of each embedded function follows the source.
-/

namespace VibeKanban

/-- Task status, `TaskStatus` in the db models. -/
inductive TaskStatus where
  | Todo
  | InProgress
  | Testing
  | InReview
  | HumanReview
  | Done
  | Cancelled
deriving DecidableEq, Repr

/-- `ExecutionProcessStatus` in the db models. -/
inductive ExecutionProcessStatus where
  | Running
  | Completed
  | Failed
  | Killed
deriving DecidableEq, Repr

/-- `ExecutionProcessRunReason` in the db models. -/
inductive ExecutionProcessRunReason where
  | SetupScript
  | CodingAgent
  | CleanupScript
  | DevServer
deriving DecidableEq, Repr

/-- `ScriptContext` from `executors::actions::script`. -/
inductive ScriptContext where
  | SetupScript
  | CleanupScript
  | DevServer
deriving DecidableEq, Repr

/-- `ExecutorActionType` from `executors::actions`: a script request or a
coding-agent (initial or follow-up) request.  Only the fields the
container service reads are modelled; the script language is always
Bash in the source paths under study so it is omitted. -/
inductive ExecutorActionType where
  | ScriptRequest (script : String) (context : ScriptContext) (working_dir : Option String)
  | CodingAgentInitialRequest (prompt : String) (working_dir : Option String)
  | CodingAgentFollowUpRequest (prompt : String) (session_id : String) (working_dir : Option String)
deriving DecidableEq, Repr

/-- `ExecutorAction`: a node of the singly-linked action chain, with a
type and an optional `next_action`. -/
inductive ExecutorAction where
  | mk (typ : ExecutorActionType) (next_action : Option ExecutorAction)

/-- The `typ` accessor of an `ExecutorAction`. -/
def ExecutorAction.typ : ExecutorAction → ExecutorActionType
  | .mk t _ => t

/-- The `next_action` accessor of an `ExecutorAction`. -/
def ExecutorAction.next_action : ExecutorAction → Option ExecutorAction
  | .mk _ n => n

/-- Modelled from the spec: `append_action(tail)` of `ExecutorAction`
(declared in the executors crate, not part of the provided sources)
"appends at chain end". -/
def ExecutorAction.append_action : ExecutorAction → ExecutorAction → ExecutorAction
  | .mk t none, tail => .mk t (some tail)
  | .mk t (some n), tail => .mk t (some (n.append_action tail))

/-- Flatten an action chain into the list of its node types, head first.
(Verification helper, not a source function.) -/
def ExecutorAction.chainToList : ExecutorAction → List ExecutorActionType
  | .mk t none => [t]
  | .mk t (some n) => t :: n.chainToList

/- ===== C1: check_conflicts_resolved ===== -/

/-- Per-repo facts read by `check_conflicts_resolved`: the persisted
`had_conflicts_before` flag of the repo state, and the two current git
probes (`is_rebase_in_progress`, `get_conflicted_files`) for the repo's
worktree. -/
structure RepoConflictState where
  had_conflicts_before : Bool
  is_rebase_in_progress : Bool
  conflicted_files : List String
deriving DecidableEq, Repr

/-- `has_conflicts` as computed inside the loop of
`check_conflicts_resolved`: a rebase in progress or a non-empty
conflicted-files list. -/
def RepoConflictState.current_conflicts (s : RepoConflictState) : Bool :=
  s.is_rebase_in_progress || !s.conflicted_files.isEmpty

/-- `ContainerService::check_conflicts_resolved`, success path: if no
repo state has `had_conflicts_before`, return false; otherwise loop over
ALL repo states and return false as soon as one currently has conflicts;
return true if none does. -/
def check_conflicts_resolved (repo_states : List RepoConflictState) : Bool :=
  if repo_states.any (·.had_conflicts_before) then
    !(repo_states.any (·.current_conflicts))
  else
    false

/-- The spec's formula for `check_conflicts_resolved` (written from the
spec's words, for comparison): some repo had conflicts before, and every
repo with `had_conflicts_before` currently has no conflicts — repos that
had no conflicts before are ignored. -/
def check_conflicts_resolved_specFormula (repo_states : List RepoConflictState) : Bool :=
  repo_states.any (·.had_conflicts_before) &&
    repo_states.all (fun s => !s.current_conflicts || !s.had_conflicts_before)

/- ===== C2: should_finalize ===== -/

/-- The fields of `ExecutionProcess` that `should_finalize` and
`finalize_task` read. -/
structure ExecutionProcessFacts where
  run_reason : ExecutionProcessRunReason
  status : ExecutionProcessStatus
  executor_action : ExecutorAction

/-- `ContainerService::should_finalize`: never for DevServer; never for
a SetupScript without a `next_action` (parallel mode); always for Failed
or Killed; otherwise exactly when `next_action` is None. -/
def should_finalize (p : ExecutionProcessFacts) : Bool :=
  if p.run_reason = ExecutionProcessRunReason.DevServer then
    false
  else if p.run_reason = ExecutionProcessRunReason.SetupScript
      ∧ p.executor_action.next_action.isNone then
    false
  else if p.status = ExecutionProcessStatus.Failed
      ∨ p.status = ExecutionProcessStatus.Killed then
    true
  else
    p.executor_action.next_action.isNone

/- ===== C3: finalize_task and cleanup_orphan_executions ===== -/

/-- Observable effects of `ContainerService::finalize_task` on the task
row and the notification service: the status written (if any) and
whether a notification was sent. -/
structure FinalizeEffects where
  task_status_update : Option TaskStatus
  notification_sent : Bool
deriving DecidableEq, Repr

/-- `ContainerService::finalize_task`: return immediately on Killed;
otherwise write Testing (for Completed the `check_conflicts_resolved`
probe is consulted but both of its outcomes select Testing), then notify
for Completed and Failed; for a still-Running process the notification
match arm warns and returns without notifying. -/
def finalize_task (proc_status : ExecutionProcessStatus)
    (conflicts_resolved : Option Bool) : FinalizeEffects :=
  if proc_status = ExecutionProcessStatus.Killed then
    { task_status_update := none, notification_sent := false }
  else
    let final_status :=
      if proc_status = ExecutionProcessStatus.Completed then
        match conflicts_resolved with
        | some true => TaskStatus.Testing
        | _ => TaskStatus.Testing
      else
        TaskStatus.Testing
    let notified :=
      match proc_status with
      | ExecutionProcessStatus.Completed => true
      | ExecutionProcessStatus.Failed => true
      | _ => false
    { task_status_update := some final_status, notification_sent := notified }

/-- Observable per-orphan effects of
`ContainerService::cleanup_orphan_executions`: the status and exit code
written to the execution-process row and the status written to the
parent task (if any). -/
structure OrphanCleanupEffects where
  process_status : ExecutionProcessStatus
  exit_code : Option Int
  task_status_update : Option TaskStatus
deriving DecidableEq, Repr

/-- `cleanup_orphan_executions`, per Running process: mark it Failed
with no exit code; set the parent task to InReview when the run reason
is CodingAgent, SetupScript or CleanupScript. -/
def cleanup_orphan_execution (run_reason : ExecutionProcessRunReason) :
    OrphanCleanupEffects :=
  { process_status := ExecutionProcessStatus.Failed
    exit_code := none
    task_status_update :=
      if run_reason = ExecutionProcessRunReason.CodingAgent
          ∨ run_reason = ExecutionProcessRunReason.SetupScript
          ∨ run_reason = ExecutionProcessRunReason.CleanupScript then
        some TaskStatus.InReview
      else
        none }

/- ===== C4: validate_status_transition ===== -/

/-- `ProjectWorkflowConfig` from `services::config` as read by the
container service. -/
structure ProjectWorkflowConfig where
  enable_human_review : Bool
  max_ai_review_iterations : Nat
  testing_requires_manual_exit : Bool
  auto_start_ai_review : Bool
  ai_review_prompt_template : Option String
deriving DecidableEq, Repr

/-- `ContainerService::validate_status_transition`, translated arm by
arm: self-transitions first, then config defaults (`enable_human_review`
false, `testing_requires_manual_exit` true when no config), then the
match over `(from, to)` in source order. -/
def validate_status_transition (from_status to_status : TaskStatus)
    (config : Option ProjectWorkflowConfig) : Except String Unit :=
  if from_status = to_status then
    Except.ok ()
  else
    let enable_human_review := (config.map (·.enable_human_review)).getD false
    let testing_requires_manual_exit :=
      (config.map (·.testing_requires_manual_exit)).getD true
    let is_testing_target := to_status = TaskStatus.Testing
    let is_human_review_target := to_status = TaskStatus.HumanReview
    let from_not_in_progress := ¬(from_status = TaskStatus.InProgress)
    let from_not_in_review := ¬(from_status = TaskStatus.InReview)
    match from_status, to_status with
    | TaskStatus.Todo, TaskStatus.InProgress => Except.ok ()
    | TaskStatus.InProgress, TaskStatus.Testing => Except.ok ()
    | TaskStatus.Testing, TaskStatus.InReview => Except.ok ()
    | TaskStatus.Testing, TaskStatus.InProgress => Except.ok ()
    | TaskStatus.Testing, TaskStatus.Done => Except.ok ()
    | TaskStatus.Testing, TaskStatus.Cancelled => Except.ok ()
    | TaskStatus.InReview, TaskStatus.Done => Except.ok ()
    | TaskStatus.InReview, TaskStatus.Cancelled => Except.ok ()
    | TaskStatus.HumanReview, TaskStatus.Done => Except.ok ()
    | TaskStatus.HumanReview, TaskStatus.InProgress => Except.ok ()
    | TaskStatus.HumanReview, TaskStatus.Cancelled => Except.ok ()
    | TaskStatus.InProgress, TaskStatus.Done => Except.ok ()
    | TaskStatus.InProgress, TaskStatus.Cancelled => Except.ok ()
    | TaskStatus.Todo, TaskStatus.Cancelled => Except.ok ()
    | TaskStatus.InReview, TaskStatus.HumanReview =>
        if enable_human_review then Except.ok ()
        else Except.error "Human Review is not enabled for this project"
    | TaskStatus.InProgress, TaskStatus.InReview =>
        if testing_requires_manual_exit then
          Except.error "Testing phase requires manual exit - tasks must go through Testing before AI Review"
        else Except.ok ()
    | TaskStatus.InReview, TaskStatus.InProgress =>
        Except.error "Use AI review result handler instead"
    | f, t =>
        if is_testing_target ∧ from_not_in_progress then
          Except.error "Only InProgress tasks can enter Testing"
        else if is_human_review_target ∧ from_not_in_review then
          Except.error "Only InReview tasks can enter Human Review"
        else
          match f, t with
          | TaskStatus.Todo, _ => Except.error "Tasks must start in InProgress"
          | _, TaskStatus.Todo => Except.error "Cannot transition to Todo status"
          | TaskStatus.Done, _ => Except.error "Cannot transition from Done"
          | TaskStatus.Cancelled, _ => Except.error "Cannot transition from Cancelled"
          | _, _ => Except.error "Invalid status transition"

/- ===== C5: start_execution failure handling ===== -/

/-- `ExecutorError` variants relevant to the start-failure path of
`start_execution`; other executor errors are summarised by `otherExec`. -/
inductive ExecutorErrorM where
  | ExecutableNotFound (program : String)
  | otherExec (msg : String)
deriving DecidableEq, Repr

/-- `ContainerError` variants relevant to the start-failure path; all
non-executor errors are summarised by `otherContainer`. -/
inductive ContainerErrorM where
  | ExecutorError (e : ExecutorErrorM)
  | otherContainer (msg : String)
deriving DecidableEq, Repr

/-- The `Display` rendering of a `ContainerError` as it appears in the
stderr log line (the `ExecutorError` variant is `#[error(transparent)]`;
`ExecutableNotFound`'s Debug-style rendering is taken from the spec's
literal scenario 2). -/
def renderContainerError : ContainerErrorM → String
  | ContainerErrorM.ExecutorError (ExecutorErrorM.ExecutableNotFound program) =>
      "ExecutableNotFound \x7b program: \"" ++ program ++ "\" \x7d"
  | ContainerErrorM.ExecutorError (ExecutorErrorM.otherExec msg) => msg
  | ContainerErrorM.otherContainer msg => msg

/-- `NormalizedEntryError` values used on the start-failure path. -/
inductive NormalizedEntryErrorM where
  | SetupRequired
deriving DecidableEq, Repr

/-- A persisted log line as appended by the start-failure path: either a
raw `Stderr` entry or a `JsonPatch` carrying a normalised `ErrorMessage`
entry at a conversation index. -/
inductive PersistedLogLine where
  | Stderr (s : String)
  | JsonPatchErrorMessage (index : Nat) (error_type : NormalizedEntryErrorM)
      (content : String)
deriving DecidableEq, Repr

/-- Observable effects of the `if let Err(start_error) = start_execution_inner(...)`
block of `start_execution`: the statuses written, the log lines
appended, and the returned error. -/
structure StartFailureEffects where
  process_status : ExecutionProcessStatus
  exit_code : Option Int
  task_status_update : TaskStatus
  appended_logs : List PersistedLogLine
  returned_error : ContainerErrorM
deriving DecidableEq, Repr

/-- The start-failure block of `start_execution`: mark the process
Failed with no exit code, set the task to InReview, append the
`"Failed to start execution: {err}"` stderr line, append the
`ErrorMessage(SetupRequired)` JsonPatch at conversation index 2 exactly
for `ExecutableNotFound`, and return the start error. -/
def handle_start_failure (start_error : ContainerErrorM) : StartFailureEffects :=
  { process_status := ExecutionProcessStatus.Failed
    exit_code := none
    task_status_update := TaskStatus.InReview
    appended_logs :=
      [PersistedLogLine.Stderr
        ("Failed to start execution: " ++ renderContainerError start_error)] ++
      (match start_error with
       | ContainerErrorM.ExecutorError (ExecutorErrorM.ExecutableNotFound program) =>
           [PersistedLogLine.JsonPatchErrorMessage 2 NormalizedEntryErrorM.SetupRequired
             ("The required executable `" ++ program ++ "` is not installed.")]
       | _ => [])
    returned_error := start_error }

/- ===== C6: start_workspace spawn plan ===== -/

/-- `ProjectRepoWithName`: the per-repo project fields read by
`start_workspace` and the chain builders. -/
structure ProjectRepoWithName where
  repo_name : String
  setup_script : Option String
  cleanup_script : Option String
  parallel_setup_script : Bool
deriving DecidableEq, Repr

/-- `ContainerService::cleanup_actions_for_repos`: chain the cleanup
scripts of all repos that have one, in repo order, via `append_action`;
None when no repo has a cleanup script. -/
def cleanup_actions_for_repos (repos : List ProjectRepoWithName) :
    Option ExecutorAction :=
  let repos_with_cleanup := repos.filter (·.cleanup_script.isSome)
  match repos_with_cleanup with
  | [] => none
  | first :: rest =>
      let root_action := ExecutorAction.mk
        (ExecutorActionType.ScriptRequest ((first.cleanup_script).getD "")
          ScriptContext.CleanupScript (some first.repo_name))
        none
      some (rest.foldl
        (fun acc repo => acc.append_action (ExecutorAction.mk
          (ExecutorActionType.ScriptRequest ((repo.cleanup_script).getD "")
            ScriptContext.CleanupScript (some repo.repo_name))
          none))
        root_action)

/-- `ContainerService::setup_action_for_repo`: an independent setup
action (no `next_action`) for one repo, None when it has no setup
script. -/
def setup_action_for_repo (repo : ProjectRepoWithName) : Option ExecutorAction :=
  repo.setup_script.map (fun script =>
    ExecutorAction.mk
      (ExecutorActionType.ScriptRequest script ScriptContext.SetupScript
        (some repo.repo_name))
      none)

/-- `ContainerService::build_sequential_setup_chain`: fold the setup
scripts of `repos` (reverse iteration with prepend, i.e. a right fold)
onto the front of `next_action`. -/
def build_sequential_setup_chain (repos : List ProjectRepoWithName)
    (next_action : ExecutorAction) : ExecutorAction :=
  repos.foldr
    (fun repo chained =>
      match repo.setup_script with
      | some script =>
          ExecutorAction.mk
            (ExecutorActionType.ScriptRequest script ScriptContext.SetupScript
              (some repo.repo_name))
            (some chained)
      | none => chained)
    next_action

/-- The coding action built by `start_workspace`: the initial
coding-agent request with the cleanup chain (if any) as its
`next_action`. -/
def start_workspace_coding_action (repos : List ProjectRepoWithName)
    (prompt : String) (working_dir : Option String) : ExecutorAction :=
  ExecutorAction.mk
    (ExecutorActionType.CodingAgentInitialRequest prompt working_dir)
    (cleanup_actions_for_repos repos)

/-- The spawn plan of `start_workspace`: the `(action, run_reason)`
pairs passed to `start_execution`, in order.  If every repo with a setup
script is marked parallel, each setup is spawned independently and then
the coding action; otherwise the single sequential chain is spawned. -/
def start_workspace_spawns (repos : List ProjectRepoWithName)
    (prompt : String) (working_dir : Option String) :
    List (ExecutorAction × ExecutionProcessRunReason) :=
  let repos_with_setup := repos.filter (·.setup_script.isSome)
  let all_parallel := repos_with_setup.all (·.parallel_setup_script)
  let coding_action := start_workspace_coding_action repos prompt working_dir
  if all_parallel then
    (repos_with_setup.filterMap setup_action_for_repo).map
      (fun a => (a, ExecutionProcessRunReason.SetupScript)) ++
    [(coding_action, ExecutionProcessRunReason.CodingAgent)]
  else
    [(build_sequential_setup_chain repos_with_setup coding_action,
      ExecutionProcessRunReason.SetupScript)]

/- ===== C7: before-commit capture in start_execution ===== -/

/-- A `GitServiceError` (opaque payload). -/
structure GitServiceErrorM where
  msg : String
deriving DecidableEq, Repr

/-- The git-probe results available for one repo when `start_execution`
captures its before-state: `get_head_info` (projected to the head OID),
`is_rebase_in_progress` and `get_conflicted_files`, each of which may
fail. -/
structure RepoGitProbe where
  repo_id : Nat
  head_oid : Except GitServiceErrorM String
  is_rebase_in_progress : Except GitServiceErrorM Bool
  conflicted_files : Except GitServiceErrorM (List String)
deriving Repr

/-- `CreateExecutionProcessRepoState` as assembled by
`start_execution`. -/
structure CreateExecutionProcessRepoState where
  repo_id : Nat
  before_head_commit : Option String
  after_head_commit : Option String
  merge_commit : Option String
  had_conflicts_before : Bool
deriving DecidableEq, Repr

/-- The per-repo body of `start_execution`'s capture loop:
`get_head_info(..).ok().map(|h| h.oid)`,
`is_rebase_in_progress(..).unwrap_or(false)`, and
`get_conflicted_files(..).unwrap_or_default()` — every git error is
swallowed. -/
def capture_repo_state (probe : RepoGitProbe) : CreateExecutionProcessRepoState :=
  { repo_id := probe.repo_id
    before_head_commit := probe.head_oid.toOption
    after_head_commit := none
    merge_commit := none
    had_conflicts_before :=
      (probe.is_rebase_in_progress.toOption.getD false)
        || !((probe.conflicted_files.toOption.getD []).isEmpty) }

/-- The repo-state phase of `start_execution` (lines 1087–1124): error
when the workspace has no repositories or no `container_ref`; otherwise
the list of captured repo states — git-probe failures never abort it. -/
def start_execution_repo_states (container_ref : Option String)
    (repos : List RepoGitProbe) :
    Except ContainerErrorM (List CreateExecutionProcessRepoState) :=
  if repos.isEmpty then
    Except.error (ContainerErrorM.otherContainer "Workspace has no repositories configured")
  else
    match container_ref with
    | none => Except.error (ContainerErrorM.otherContainer "Container ref not found")
    | some _ => Except.ok (repos.map capture_repo_state)

/- ===== C8: WorkflowConfig serde ===== -/

/-- `WorkflowConfig` from config version v9 (`max_ai_review_iterations`
is a `u32`; its numeric range plays no role in the claims, so it is a
`Nat` here). -/
structure WorkflowConfig where
  enable_human_review : Bool
  max_ai_review_iterations : Nat
  testing_requires_manual_exit : Bool
  auto_start_ai_review : Bool
  ai_review_prompt_template : Option String
deriving DecidableEq, Repr

/-- `default_enable_human_review()` from v9.rs. -/
def default_enable_human_review : Bool := false

/-- `default_max_ai_review_iterations()` from v9.rs. -/
def default_max_ai_review_iterations : Nat := 3

/-- `default_testing_requires_manual_exit()` from v9.rs. -/
def default_testing_requires_manual_exit : Bool := true

/-- `default_auto_start_ai_review()` from v9.rs. -/
def default_auto_start_ai_review : Bool := true

/-- `WorkflowConfig::default()` from v9.rs. -/
def WorkflowConfig.default : WorkflowConfig :=
  { enable_human_review := default_enable_human_review
    max_ai_review_iterations := default_max_ai_review_iterations
    testing_requires_manual_exit := default_testing_requires_manual_exit
    auto_start_ai_review := default_auto_start_ai_review
    ai_review_prompt_template := none }

/-- A JSON object holding (well-typed) `WorkflowConfig` fields: `none`
means the field is absent from the object.  For
`ai_review_prompt_template` the inner option distinguishes an explicit
`null` from a string. -/
structure WorkflowConfigJson where
  enable_human_review : Option Bool
  max_ai_review_iterations : Option Nat
  testing_requires_manual_exit : Option Bool
  auto_start_ai_review : Option Bool
  ai_review_prompt_template : Option (Option String)
deriving DecidableEq, Repr

/-- Serde deserialisation of `WorkflowConfig`: each field annotated
`#[serde(default = "...")]` (or `#[serde(default)]`) takes its default
function's value when absent. -/
def WorkflowConfig.fromJson (j : WorkflowConfigJson) : WorkflowConfig :=
  { enable_human_review := j.enable_human_review.getD default_enable_human_review
    max_ai_review_iterations :=
      j.max_ai_review_iterations.getD default_max_ai_review_iterations
    testing_requires_manual_exit :=
      j.testing_requires_manual_exit.getD default_testing_requires_manual_exit
    auto_start_ai_review := j.auto_start_ai_review.getD default_auto_start_ai_review
    ai_review_prompt_template := j.ai_review_prompt_template.getD none }

/-- Serde serialisation of `WorkflowConfig`: no field carries
`skip_serializing_if`, so every field is emitted (the `Option` field as
`null` when `None`). -/
def WorkflowConfig.toJson (c : WorkflowConfig) : WorkflowConfigJson :=
  { enable_human_review := some c.enable_human_review
    max_ai_review_iterations := some c.max_ai_review_iterations
    testing_requires_manual_exit := some c.testing_requires_manual_exit
    auto_start_ai_review := some c.auto_start_ai_review
    ai_review_prompt_template := some c.ai_review_prompt_template }

/-- The empty JSON object `\x7b\x7d`. -/
def WorkflowConfigJson.empty : WorkflowConfigJson :=
  { enable_human_review := none
    max_ai_review_iterations := none
    testing_requires_manual_exit := none
    auto_start_ai_review := none
    ai_review_prompt_template := none }

/- ===== C9: CustomAgent base_agent deserialisation guard ===== -/

/-- The `CodingAgent` sum type (`{ClaudeCode, Amp, Gemini, Codex,
Opencode, CursorAgent, QwenCode, Copilot, Droid, CustomAgent}`).  Only
the variant tag matters to the guard; the `customAgent` variant carries
its (already parsed) `base_agent` field. -/
inductive CodingAgentM where
  | claudeCode
  | amp
  | gemini
  | codex
  | opencode
  | cursorAgent
  | qwenCode
  | copilot
  | droid
  | customAgent (base_agent : Option CodingAgentM)

/-- Whether a `CodingAgent` value is the `CustomAgent` variant
(`matches!(boxed.as_ref(), CodingAgent::CustomAgent(_))`). -/
def CodingAgentM.isCustom : CodingAgentM → Bool
  | CodingAgentM.customAgent _ => true
  | _ => false

/-- `deserialize_base_agent` from custom_agent.rs, applied to an already
well-formed optional `CodingAgent` value: reject `Some(CustomAgent)`
with the fixed error message, pass everything else through. -/
def deserialize_base_agent (agent : Option CodingAgentM) :
    Except String (Option CodingAgentM) :=
  match agent with
  | some boxed =>
      if boxed.isCustom then
        Except.error "Custom agent cannot be based on another Custom agent"
      else
        Except.ok agent
  | none => Except.ok agent

/- ===== C10: handle_ai_review_result ===== -/

/-- `AIReviewResult` from container.rs. -/
inductive AIReviewResult where
  | Pass
  | Fail (issues : List String)
  | NeedsIntervention
deriving DecidableEq, Repr

/-- Observable outcome of `ContainerService::handle_ai_review_result`:
the status persisted via `Task::update_status` (if any) and the status
returned to the caller. -/
structure AIReviewEffects where
  persisted_status : Option TaskStatus
  returned_status : TaskStatus
deriving DecidableEq, Repr

/-- `handle_ai_review_result`: on Pass persist HumanReview or Done
depending on `enable_human_review` but return `TaskStatus::Done`
unconditionally; on Fail persist and return InProgress (after creating
one `"Fix: {issue}"` subtask per issue); on NeedsIntervention persist
nothing and return InReview. -/
def handle_ai_review_result (config : ProjectWorkflowConfig)
    (result : AIReviewResult) : AIReviewEffects :=
  match result with
  | AIReviewResult.Pass =>
      let new_status :=
        if config.enable_human_review then TaskStatus.HumanReview
        else TaskStatus.Done
      { persisted_status := some new_status
        returned_status := TaskStatus.Done }
  | AIReviewResult.Fail _ =>
      { persisted_status := some TaskStatus.InProgress
        returned_status := TaskStatus.InProgress }
  | AIReviewResult.NeedsIntervention =>
      { persisted_status := none
        returned_status := TaskStatus.InReview }

/-- Titles of the subtasks created by `create_review_feedback_subtasks`
for the Fail case. -/
def create_review_feedback_subtask_titles (issues : List String) : List String :=
  issues.map (fun issue => "Fix: " ++ issue)

/-- Flatten an optional chain (verification helper). -/
def optionChainToList : Option ExecutorAction → List ExecutorActionType
  | none => []
  | some a => a.chainToList

/-- The node type of the setup action built for one repo (verification
helper used to state C6). -/
def setupNodeType (r : ProjectRepoWithName) : ExecutorActionType :=
  ExecutorActionType.ScriptRequest (r.setup_script.getD "") ScriptContext.SetupScript
    (some r.repo_name)

/-- The node type of the cleanup action built for one repo
(verification helper used to state C6). -/
def cleanupNodeType (r : ProjectRepoWithName) : ExecutorActionType :=
  ExecutorActionType.ScriptRequest (r.cleanup_script.getD "") ScriptContext.CleanupScript
    (some r.repo_name)

/- ===== Helper lemmas ===== -/

theorem bool_not_any_eq_all_not {α : Type} (l : List α) (p : α → Bool) :
    (!l.any p) = l.all (fun x => !p x) := by
  induction l with
  | nil => rfl
  | cons a t ih => simp [List.any_cons, List.all_cons, ← ih, Bool.not_or]

theorem chainToList_mk (t : ExecutorActionType) (n : Option ExecutorAction) :
    (ExecutorAction.mk t n).chainToList = t :: optionChainToList n := by
  cases n <;> rfl

theorem chainToList_ne_nil (a : ExecutorAction) : a.chainToList ≠ [] := by
  cases a with
  | mk t n => rw [chainToList_mk]; exact List.cons_ne_nil _ _

theorem append_action_chainToList (a b : ExecutorAction) :
    (a.append_action b).chainToList = a.chainToList ++ b.chainToList := by
  induction a, b using ExecutorAction.append_action.induct with
  | case1 t tail => simp [ExecutorAction.append_action, ExecutorAction.chainToList]
  | case2 t n tail ih =>
      simp only [ExecutorAction.append_action, ExecutorAction.chainToList, ih,
        List.cons_append]

theorem cleanup_fold_chainToList (rest : List ProjectRepoWithName)
    (root : ExecutorAction) :
    (rest.foldl
      (fun acc repo => acc.append_action (ExecutorAction.mk
        (ExecutorActionType.ScriptRequest ((repo.cleanup_script).getD "")
          ScriptContext.CleanupScript (some repo.repo_name))
        none))
      root).chainToList = root.chainToList ++ rest.map cleanupNodeType := by
  induction rest generalizing root with
  | nil => simp
  | cons r rs ih =>
      simp only [List.foldl_cons, List.map_cons, ih, append_action_chainToList,
        chainToList_mk, optionChainToList, cleanupNodeType, List.append_assoc,
        List.cons_append, List.nil_append]

theorem cleanup_actions_chainToList (repos : List ProjectRepoWithName) :
    optionChainToList (cleanup_actions_for_repos repos) =
      (repos.filter (·.cleanup_script.isSome)).map cleanupNodeType := by
  unfold cleanup_actions_for_repos
  cases h : repos.filter (·.cleanup_script.isSome) with
  | nil => simp [optionChainToList]
  | cons first rest =>
      simp only [optionChainToList, cleanup_fold_chainToList, chainToList_mk,
        List.map_cons, List.cons_append, List.nil_append, cleanupNodeType]

theorem build_sequential_setup_chain_chainToList (repos : List ProjectRepoWithName)
    (next_action : ExecutorAction)
    (h : ∀ r ∈ repos, r.setup_script.isSome) :
    (build_sequential_setup_chain repos next_action).chainToList =
      repos.map setupNodeType ++ next_action.chainToList := by
  induction repos with
  | nil => simp [build_sequential_setup_chain]
  | cons r rs ih =>
      have hr : r.setup_script.isSome := h r (List.mem_cons_self r rs)
      have hrs : ∀ x ∈ rs, x.setup_script.isSome := fun x hx => h x (List.mem_cons_of_mem r hx)
      obtain ⟨script, hscript⟩ := Option.isSome_iff_exists.mp hr
      simp only [build_sequential_setup_chain, List.foldr_cons, List.map_cons] at *
      rw [hscript]
      simp only [ExecutorAction.chainToList]
      rw [ih hrs, setupNodeType, hscript]
      simp

theorem setup_filterMap_eq_map (repos : List ProjectRepoWithName)
    (h : ∀ r ∈ repos, r.setup_script.isSome) :
    repos.filterMap setup_action_for_repo =
      repos.map (fun r => ExecutorAction.mk (setupNodeType r) none) := by
  induction repos with
  | nil => rfl
  | cons r rs ih =>
      have hr : r.setup_script.isSome := h r (List.mem_cons_self r rs)
      have hrs : ∀ x ∈ rs, x.setup_script.isSome := fun x hx => h x (List.mem_cons_of_mem r hx)
      obtain ⟨script, hscript⟩ := Option.isSome_iff_exists.mp hr
      simp only [List.filterMap_cons, List.map_cons, setup_action_for_repo, hscript,
        Option.map_some', ih hrs, setupNodeType]
      simp [hscript]

/- ===== Claim theorems ===== -/

/-- Claim C1, counterexample: with two repo states — the first had
conflicts before and has none now, the second had none before but is
now mid-rebase — the spec's formula yields true (the second repo should
be ignored) but `check_conflicts_resolved` returns false: the source
loop probes every repo, not only those with `had_conflicts_before`. -/
theorem check_conflicts_resolved_claim_counterexample :
    check_conflicts_resolved
        [⟨true, false, []⟩, ⟨false, true, []⟩] = false ∧
      check_conflicts_resolved_specFormula
        [⟨true, false, []⟩, ⟨false, true, []⟩] = true := by
  decide

/-- Claim C1 as amended: `check_conflicts_resolved` returns true iff
some repo state has `had_conflicts_before` AND every repo — including
those that had no conflicts before execution — currently has no rebase
in progress and no conflicted files; for an empty repo-state set it
returns false. -/
theorem check_conflicts_resolved_amended (repo_states : List RepoConflictState) :
    check_conflicts_resolved repo_states =
      (repo_states.any (·.had_conflicts_before) &&
        repo_states.all (fun s => !s.current_conflicts)) := by
  unfold check_conflicts_resolved
  cases h : repo_states.any (·.had_conflicts_before) with
  | false => simp [h]
  | true => simp [h, bool_not_any_eq_all_not]

/-- Claim C2: `should_finalize` is false exactly on DevServer processes
and on SetupScript processes whose action has no `next_action` (even
when Failed or Killed); otherwise it is true for Failed and Killed
processes regardless of `next_action`, and in all remaining cases true
exactly when `next_action` is None. -/
theorem should_finalize_characterisation (p : ExecutionProcessFacts) :
    should_finalize p = true ↔
      p.run_reason ≠ ExecutionProcessRunReason.DevServer ∧
      ¬(p.run_reason = ExecutionProcessRunReason.SetupScript ∧
          p.executor_action.next_action = none) ∧
      (p.status = ExecutionProcessStatus.Failed ∨
        p.status = ExecutionProcessStatus.Killed ∨
        p.executor_action.next_action = none) := by
  obtain ⟨rr, st, a⟩ := p
  obtain ⟨t, n⟩ := a
  cases rr <;> cases st <;> cases n <;>
    simp [should_finalize, ExecutorAction.next_action]

/-- Claim C3: `finalize_task` performs no status write and sends no
notification for a Killed process, and writes Testing (with a
notification) for both Completed and Failed — independently of the
conflict probe; `cleanup_orphan_executions` marks each orphan Failed
with no exit code and sets the parent task to InReview exactly for
CodingAgent, SetupScript and CleanupScript orphans. -/
theorem finalize_and_orphan_policy :
    (∀ conflicts_resolved : Option Bool,
        finalize_task ExecutionProcessStatus.Killed conflicts_resolved =
          { task_status_update := none, notification_sent := false }) ∧
    (∀ conflicts_resolved,
        finalize_task ExecutionProcessStatus.Completed conflicts_resolved =
          { task_status_update := some TaskStatus.Testing, notification_sent := true }) ∧
    (∀ conflicts_resolved,
        finalize_task ExecutionProcessStatus.Failed conflicts_resolved =
          { task_status_update := some TaskStatus.Testing, notification_sent := true }) ∧
    (∀ run_reason, cleanup_orphan_execution run_reason =
        { process_status := ExecutionProcessStatus.Failed
          exit_code := none
          task_status_update :=
            if run_reason = ExecutionProcessRunReason.CodingAgent
                ∨ run_reason = ExecutionProcessRunReason.SetupScript
                ∨ run_reason = ExecutionProcessRunReason.CleanupScript
            then some TaskStatus.InReview else none }) := by
  refine ⟨?_, ?_, ?_, ?_⟩
  · intro c; rcases c with _ | b
    · rfl
    · cases b <;> rfl
  · intro c; rcases c with _ | b
    · rfl
    · cases b <;> rfl
  · intro c; rcases c with _ | b
    · rfl
    · cases b <;> rfl
  · intro r; cases r <;> rfl

/-- Claim C4: `validate_status_transition` never leaves Done or
Cancelled (only the self-transition is Ok); permits InReview →
HumanReview exactly when `enable_human_review` (false without a
config); permits InProgress → InReview exactly when
`testing_requires_manual_exit` is false (true without a config);
rejects InReview → InProgress and InReview → Testing; and accepts every
self-transition under every config. -/
theorem validate_status_transition_policy :
    (∀ (config : Option ProjectWorkflowConfig) (s : TaskStatus),
        (validate_status_transition TaskStatus.Done s config).isOk = true ↔
          s = TaskStatus.Done) ∧
    (∀ config (s : TaskStatus),
        (validate_status_transition TaskStatus.Cancelled s config).isOk = true ↔
          s = TaskStatus.Cancelled) ∧
    (∀ config,
        (validate_status_transition TaskStatus.InReview TaskStatus.HumanReview
            config).isOk = true ↔
          (config.map (·.enable_human_review)).getD false = true) ∧
    (∀ config,
        (validate_status_transition TaskStatus.InProgress TaskStatus.InReview
            config).isOk = true ↔
          (config.map (·.testing_requires_manual_exit)).getD true = false) ∧
    (∀ config,
        (validate_status_transition TaskStatus.InReview TaskStatus.InProgress
            config).isOk = false ∧
        (validate_status_transition TaskStatus.InReview TaskStatus.Testing
            config).isOk = false) ∧
    (∀ config (s : TaskStatus),
        validate_status_transition s s config = Except.ok ()) := by
  refine ⟨?_, ?_, ?_, ?_, ?_, ?_⟩
  · intro config s
    cases s <;> simp [validate_status_transition, Except.isOk, Except.toBool]
  · intro config s
    cases s <;> simp [validate_status_transition, Except.isOk, Except.toBool]
  · intro config
    rcases config with _ | c
    · simp [validate_status_transition, Except.isOk, Except.toBool]
    · cases h : c.enable_human_review <;>
        simp [validate_status_transition, Except.isOk, Except.toBool, h]
  · intro config
    rcases config with _ | c
    · simp [validate_status_transition, Except.isOk, Except.toBool]
    · cases h : c.testing_requires_manual_exit <;>
        simp [validate_status_transition, Except.isOk, Except.toBool, h]
  · intro config
    constructor <;> simp [validate_status_transition, Except.isOk, Except.toBool]
  · intro config s
    simp [validate_status_transition]

/-- Claim C5: when `start_execution_inner` fails, the process row is
marked Failed with no exit code, the task is set to InReview, the error
is returned unchanged, and the appended log is exactly the
`"Failed to start execution: {err}"` stderr line — followed by the
`ErrorMessage(SetupRequired)` JsonPatch at conversation index 2 (with
the help text naming the program) precisely when the failure is
`ExecutableNotFound`. -/
theorem start_failure_effects (err : ContainerErrorM) :
    (handle_start_failure err).process_status = ExecutionProcessStatus.Failed ∧
    (handle_start_failure err).exit_code = none ∧
    (handle_start_failure err).task_status_update = TaskStatus.InReview ∧
    (handle_start_failure err).returned_error = err ∧
    (((∀ p, err ≠ ContainerErrorM.ExecutorError (ExecutorErrorM.ExecutableNotFound p)) ∧
        (handle_start_failure err).appended_logs =
          [PersistedLogLine.Stderr
            ("Failed to start execution: " ++ renderContainerError err)]) ∨
      (∃ p, err = ContainerErrorM.ExecutorError (ExecutorErrorM.ExecutableNotFound p) ∧
        (handle_start_failure err).appended_logs =
          [PersistedLogLine.Stderr
            ("Failed to start execution: " ++ renderContainerError err),
           PersistedLogLine.JsonPatchErrorMessage 2 NormalizedEntryErrorM.SetupRequired
            ("The required executable `" ++ p ++ "` is not installed.")])) := by
  refine ⟨rfl, rfl, rfl, rfl, ?_⟩
  match err with
  | ContainerErrorM.ExecutorError (ExecutorErrorM.ExecutableNotFound p) =>
      exact Or.inr ⟨p, rfl, rfl⟩
  | ContainerErrorM.ExecutorError (ExecutorErrorM.otherExec m) =>
      exact Or.inl (And.intro (fun p h => by simp at h) rfl)
  | ContainerErrorM.otherContainer m =>
      exact Or.inl (And.intro (fun p h => by simp at h) rfl)

/-- Claim C6: when every repo with a setup script is marked parallel,
`start_workspace` spawns each setup script as an independent process
(run reason SetupScript, no `next_action`) followed by the coding
action (run reason CodingAgent); otherwise it spawns exactly one chain
(run reason SetupScript) consisting of the setup scripts in repo order
followed by the coding action's chain.  In both modes the coding
action heads a chain whose tail is the cleanup scripts of all repos
that have one, in repo order. -/
theorem start_workspace_policy (repos : List ProjectRepoWithName)
    (prompt : String) (working_dir : Option String) :
    (if (repos.filter (·.setup_script.isSome)).all (·.parallel_setup_script) then
        start_workspace_spawns repos prompt working_dir =
          (repos.filter (·.setup_script.isSome)).map
            (fun r => (ExecutorAction.mk (setupNodeType r) none,
              ExecutionProcessRunReason.SetupScript)) ++
          [(start_workspace_coding_action repos prompt working_dir,
            ExecutionProcessRunReason.CodingAgent)]
      else
        ∃ chain, start_workspace_spawns repos prompt working_dir =
            [(chain, ExecutionProcessRunReason.SetupScript)] ∧
          chain.chainToList =
            (repos.filter (·.setup_script.isSome)).map setupNodeType ++
              (start_workspace_coding_action repos prompt working_dir).chainToList) ∧
    (start_workspace_coding_action repos prompt working_dir).chainToList =
      ExecutorActionType.CodingAgentInitialRequest prompt working_dir ::
        (repos.filter (·.cleanup_script.isSome)).map cleanupNodeType := by
  have hsetup : ∀ r ∈ repos.filter (·.setup_script.isSome), r.setup_script.isSome :=
    fun r hr => (List.mem_filter.mp hr).2
  constructor
  · cases h : (repos.filter (·.setup_script.isSome)).all (·.parallel_setup_script) with
    | true =>
        rw [if_pos rfl]
        simp only [start_workspace_spawns, h, if_true,
          setup_filterMap_eq_map _ hsetup, List.map_map]
        rfl
    | false =>
        rw [if_neg (by simp [h])]
        refine ⟨build_sequential_setup_chain (repos.filter (·.setup_script.isSome))
          (start_workspace_coding_action repos prompt working_dir), ?_, ?_⟩
        · simp only [start_workspace_spawns, h, Bool.false_eq_true, if_false]
        · exact build_sequential_setup_chain_chainToList _ _ hsetup
  · unfold start_workspace_coding_action
    rw [chainToList_mk, cleanup_actions_chainToList]

/-- Claim C7, counterexample: a repo whose head-OID lookup and both
conflict probes all fail with a `GitServiceError` does NOT make the
repo-state phase of `start_execution` fail — it succeeds, recording no
before-commit and `had_conflicts_before = false`, and the
ExecutionProcess creation proceeds. -/
theorem start_execution_git_error_counterexample :
    (start_execution_repo_states (some "/workspaces/ws")
        [{ repo_id := 0
           head_oid := Except.error { msg := "git failure" }
           is_rebase_in_progress := Except.error { msg := "git failure" }
           conflicted_files := Except.error { msg := "git failure" } }]).isOk = true ∧
    start_execution_repo_states (some "/workspaces/ws")
        [{ repo_id := 0
           head_oid := Except.error { msg := "git failure" }
           is_rebase_in_progress := Except.error { msg := "git failure" }
           conflicted_files := Except.error { msg := "git failure" } }] =
      Except.ok [{ repo_id := 0
                   before_head_commit := none
                   after_head_commit := none
                   merge_commit := none
                   had_conflicts_before := false }] := by
  exact ⟨rfl, rfl⟩

/-- Claim C7 as amended: GitService errors during the before-commit
capture and conflict probe of `start_execution` are swallowed, not
fatal: the phase fails only when the workspace has no repositories or
no `container_ref`, and a repo whose probes all error is recorded with
`before_head_commit = None` and `had_conflicts_before = false`. -/
theorem start_execution_git_error_not_fatal (container_ref : Option String)
    (repos : List RepoGitProbe) :
    ((start_execution_repo_states container_ref repos).isOk =
      (!repos.isEmpty && container_ref.isSome)) ∧
    (∀ (rid : Nat) (e₁ e₂ e₃ : GitServiceErrorM),
      capture_repo_state
          { repo_id := rid
            head_oid := Except.error e₁
            is_rebase_in_progress := Except.error e₂
            conflicted_files := Except.error e₃ } =
        { repo_id := rid
          before_head_commit := none
          after_head_commit := none
          merge_commit := none
          had_conflicts_before := false }) := by
  constructor
  · unfold start_execution_repo_states
    cases repos with
    | nil => simp [Except.isOk, Except.toBool]
    | cons r rs =>
        cases container_ref <;> simp [Except.isOk, Except.toBool]
  · intro rid e₁ e₂ e₃
    rfl

/-- Claim C8: deserialising a `WorkflowConfig` fills every missing
field with its default — the empty JSON object yields the default
config `(false, 3, true, true, None)` and in general each absent field
takes that default — and serialise-then-deserialise is the identity on
`WorkflowConfig`. -/
theorem workflow_config_serde (j : WorkflowConfigJson) (c : WorkflowConfig) :
    WorkflowConfig.fromJson WorkflowConfigJson.empty = WorkflowConfig.default ∧
    WorkflowConfig.default =
      { enable_human_review := false
        max_ai_review_iterations := 3
        testing_requires_manual_exit := true
        auto_start_ai_review := true
        ai_review_prompt_template := none } ∧
    WorkflowConfig.fromJson j =
      { enable_human_review := j.enable_human_review.getD false
        max_ai_review_iterations := j.max_ai_review_iterations.getD 3
        testing_requires_manual_exit := j.testing_requires_manual_exit.getD true
        auto_start_ai_review := j.auto_start_ai_review.getD true
        ai_review_prompt_template := j.ai_review_prompt_template.getD none } ∧
    WorkflowConfig.fromJson (WorkflowConfig.toJson c) = c := by
  refine ⟨rfl, rfl, rfl, ?_⟩
  cases c
  rfl

/-- Claim C9: `deserialize_base_agent` fails — with the fixed message
"Custom agent cannot be based on another Custom agent" — exactly when
the optional base agent is a CustomAgent, and succeeds (returning the
input unchanged) exactly when it is absent or one of the non-Custom
kinds; hence a parsed CustomAgent never embeds another CustomAgent. -/
theorem custom_agent_base_guard (agent : Option CodingAgentM) :
    ((agent.elim false CodingAgentM.isCustom) = true ∧
      deserialize_base_agent agent =
        Except.error "Custom agent cannot be based on another Custom agent") ∨
    ((agent.elim false CodingAgentM.isCustom) = false ∧
      deserialize_base_agent agent = Except.ok agent) := by
  match agent with
  | none => exact Or.inr ⟨rfl, rfl⟩
  | some b =>
      cases hb : b.isCustom with
      | true =>
          exact Or.inl ⟨by simp [Option.elim, hb], by simp [deserialize_base_agent, hb]⟩
      | false =>
          exact Or.inr ⟨by simp [Option.elim, hb], by simp [deserialize_base_agent, hb]⟩

/-- Claim C10: on an AI-review Pass with `enable_human_review = true`,
`handle_ai_review_result` persists HumanReview but returns
`TaskStatus::Done`; the returned status equals the persisted one only
when `enable_human_review` is false. -/
theorem ai_review_pass_divergence (config : ProjectWorkflowConfig) :
    (handle_ai_review_result config AIReviewResult.Pass).persisted_status =
      some (if config.enable_human_review then TaskStatus.HumanReview
        else TaskStatus.Done) ∧
    (handle_ai_review_result config AIReviewResult.Pass).returned_status =
      TaskStatus.Done ∧
    ((handle_ai_review_result config AIReviewResult.Pass).persisted_status =
        some (handle_ai_review_result config AIReviewResult.Pass).returned_status ↔
      config.enable_human_review = false) := by
  cases h : config.enable_human_review <;>
    simp [handle_ai_review_result, h]

end VibeKanban
